import Mathlib

/-
  Verification development for the acai-ts request-routing library as
  described by its documentation corpus (the repository holds docs and
  examples only; the engine implementation is not part of the corpus).
  Every operational definition below is therefore modelled from the
  specification text and the configuration/requirement tables of the docs.
-/

namespace Acai

/-- Modelled from the spec: the error taxonomy of section 7 (the engine source
defining these kinds is missing from the corpus).  The extra kind hookError
stands for errors set by user before/after hooks through setError, which the
spec describes as permitted mutation points outside the seven named kinds. -/
inductive ErrorKind where
  | notFound
  | methodNotAllowed
  | validationError
  | authError
  | timeoutError
  | handlerError
  | responseValidationError
  | hookError
deriving DecidableEq, Repr

/-- Modelled from the spec: one structured violation entry, the key-path plus
message shape used by setError and by the aggregated validation output. -/
structure ErrorEntry where
  keyPath : String
  message : String
deriving DecidableEq, Repr

/-- Modelled from the spec: the serialized response body, either handler data
(abstracted to a natural number) or a structured error payload. -/
inductive Body where
  | empty
  | data (v : Nat)
  | errorPayload (kind : ErrorKind) (entries : List ErrorEntry)
deriving DecidableEq, Repr

/-- Modelled from the spec: the mutable response accumulator (status code,
body, accumulated error entries) created per invocation. -/
structure Response where
  code : Nat
  body : Body
  errors : List ErrorEntry
deriving DecidableEq, Repr

def Response.hasErrors (r : Response) : Bool := !r.errors.isEmpty

def initResponse : Response := { code := 200, body := .empty, errors := [] }

/-- Modelled from the spec: the normalized view of the inbound event
(method, path segments, headers, query, bound path parameters, body). -/
structure Request where
  method : String
  path : List String
  headers : List (String × String)
  query : List (String × String)
  pathParams : List (String × String)
  body : Nat
deriving DecidableEq, Repr

/-- A before/after/auth hook: a function over request and response. -/
abbrev Hook := Request → Response → Response

/-- Modelled from the spec: a handler entry.  The run field is the endpoint
function, duration the (logical) time until its result settles, and throws
marks an unhandled exception from business logic. -/
structure EndpointHandler where
  run : Request → Response → Response
  duration : Nat
  throws : Bool := false

/-- Modelled from the spec: the per-method Requirements record (validation
directives, auth flag, hook lists, timeout override), as listed in the
endpoint configurations table of the docs. -/
structure Requirements where
  requiredHeaders : List String := []
  availableHeaders : List String := []
  requiredQuery : List String := []
  requiredPath : Option String := none
  requiredBody : Option String := none
  requiredResponse : Option String := none
  auth : Bool := false
  before : List Hook := []
  after : List Hook := []
  timeout : Option Nat := none

/-- Modelled from the spec: the router configuration surface (global hooks,
auth collaborator, global timeout, response validation flag, and the schema
document abstracted to named predicates over body values). -/
structure RouterConfig where
  beforeAll : Option Hook := none
  afterAll : Option Hook := none
  withAuth : Option Hook := none
  timeout : Nat := 30000
  validateResponse : Bool := false
  outputError : Bool := false
  schemas : List (String × (Nat → Bool)) := []

/-! ## Validation layer -/

def hasKey (kvs : List (String × String)) (k : String) : Bool :=
  kvs.any fun kv => kv.1 = k

def mkHeaderEntry (h : String) : ErrorEntry :=
  { keyPath := "headers." ++ h, message := "Please provide " ++ h ++ " in headers" }

def mkQueryEntry (q : String) : ErrorEntry :=
  { keyPath := "query." ++ q, message := "Please provide " ++ q ++ " in query" }

def mkPathEntry (p : String) : ErrorEntry :=
  { keyPath := "path." ++ p, message := "Please provide " ++ p ++ " in path" }

/-- Modelled from the spec: requiredHeaders are checked by presence only and
header names are matched case-sensitively (endpoint configurations doc). -/
def headerViolations (req : Request) (reqs : Requirements) : List ErrorEntry :=
  reqs.requiredHeaders.filterMap fun h =>
    if hasKey req.headers h then none else some (mkHeaderEntry h)

/-- Modelled from the spec: when availableHeaders is provided, every request
header outside the list raises a violation. -/
def availableHeaderViolations (req : Request) (reqs : Requirements) : List ErrorEntry :=
  if reqs.availableHeaders.isEmpty then []
  else
    req.headers.filterMap fun kv =>
      if reqs.availableHeaders.contains kv.1 then none
      else some { keyPath := "headers." ++ kv.1, message := kv.1 ++ " is not an available header" }

def queryViolations (req : Request) (reqs : Requirements) : List ErrorEntry :=
  reqs.requiredQuery.filterMap fun q =>
    if hasKey req.query q then none else some (mkQueryEntry q)

/-- Parameter names of a requiredPath pattern such as grower/\x7bid\x7d. -/
def pathParamNames (pat : String) : List String :=
  (pat.splitOn "/").filterMap fun seg =>
    if seg.startsWith "\x7b" && seg.endsWith "\x7d" then some ((seg.drop 1).dropRight 1)
    else none

def pathViolations (req : Request) (reqs : Requirements) : List ErrorEntry :=
  match reqs.requiredPath with
  | none => []
  | some pat =>
      (pathParamNames pat).filterMap fun p =>
        if hasKey req.pathParams p then none else some (mkPathEntry p)

def lookupSchema (schemas : List (String × (Nat → Bool))) (ref : String) : Option (Nat → Bool) :=
  (schemas.find? fun s => s.1 = ref).map fun s => s.2

/-- Modelled from the spec: requiredBody delegates to the named component
schema of the external schema document (absent references are skipped). -/
def bodyViolations (cfg : RouterConfig) (req : Request) (reqs : Requirements) : List ErrorEntry :=
  match reqs.requiredBody with
  | none => []
  | some ref =>
      match lookupSchema cfg.schemas ref with
      | none => []
      | some pred =>
          if pred req.body then []
          else [{ keyPath := "body", message := "body does not match schema " ++ ref }]

/-- Modelled from the spec: the VALIDATE stage runs all applicable checks
(headers, availability, query, path, body) and aggregates every violation
into one list rather than stopping at the first failure. -/
def validateRequest (cfg : RouterConfig) (req : Request) (reqs : Requirements) : List ErrorEntry :=
  headerViolations req reqs ++ availableHeaderViolations req reqs ++ queryViolations req reqs
    ++ pathViolations req reqs ++ bodyViolations cfg req reqs

/-! ## Middleware pipeline (state machine of spec section 4.2) -/

/-- Modelled from the spec: the pipeline states BEFORE_ALL, AUTH, BEFORE,
VALIDATE, HANDLER, AFTER, AFTER_ALL, DONE and ERROR. -/
inductive Stage where
  | beforeAllStage
  | authStage
  | beforeStage
  | validateStage
  | handlerStage
  | afterStage
  | afterAllStage
  | doneStage
  | errorStage
deriving DecidableEq, Repr

/-- Modelled from the spec: default status code per error kind (hooks that
already set a non-200 code keep it). -/
def defaultCode : ErrorKind → Nat
  | .notFound => 404
  | .methodNotAllowed => 405
  | .validationError => 400
  | .authError => 401
  | .timeoutError => 408
  | .handlerError => 500
  | .responseValidationError => 500
  | .hookError => 400

/-- The outcome of one invocation: final response, the ordered list of
visited pipeline states, and whether the handler function was invoked. -/
structure PipelineResult where
  response : Response
  trace : List Stage
  handlerInvoked : Bool

def applyHook (h : Option Hook) (req : Request) (r : Response) : Response :=
  match h with
  | none => r
  | some f => f req r

/-- Hooks of one stage run in declared order; once one has set an error the
remaining hooks of the stage are skipped. -/
def runHooks (hs : List Hook) (req : Request) (r : Response) : Response :=
  hs.foldl (fun acc f => if acc.hasErrors then acc else f req acc) r

/-- Modelled from the spec: finalization of the ERROR state into a structured
error response carrying the kind and the aggregated entries. -/
def finalizeError (kind : ErrorKind) (entries : List ErrorEntry) (r : Response) : Response :=
  { code := if r.code = 200 then defaultCode kind else r.code
    body := .errorPayload kind entries
    errors := entries }

/-- Modelled from the spec: entering ERROR from the stages of t, then running
AFTER_ALL (which always runs, including after an error). -/
def errorResult (cfg : RouterConfig) (req : Request) (t : List Stage) (kind : ErrorKind)
    (entries : List ErrorEntry) (r : Response) (invoked : Bool) : PipelineResult :=
  { response := applyHook cfg.afterAll req (finalizeError kind entries r)
    trace := t ++ [.errorStage, .afterAllStage]
    handlerInvoked := invoked }

/-- Modelled from the spec: the per-route timeout override wins over the
global router timeout. -/
def effectiveTimeout (cfg : RouterConfig) (reqs : Requirements) : Nat :=
  reqs.timeout.getD cfg.timeout

def responseBodyOk (pred : Nat → Bool) : Body → Bool
  | .data v => pred v
  | _ => false

def timeoutEntries : List ErrorEntry :=
  [{ keyPath := "server", message := "handler timed out" }]

def handlerErrorEntries : List ErrorEntry :=
  [{ keyPath := "server", message := "internal server error" }]

def responseEntry (ref : String) : ErrorEntry :=
  { keyPath := "response", message := "response does not match schema " ++ ref }

/-- AFTER hooks (success path only), then AFTER_ALL and DONE. -/
def stageAfter (cfg : RouterConfig) (reqs : Requirements) (req : Request) (r : Response)
    (t : List Stage) : PipelineResult :=
  let r2 := runHooks reqs.after req r
  if r2.hasErrors then errorResult cfg req (t ++ [.afterStage]) .hookError r2.errors r2 true
  else
    { response := applyHook cfg.afterAll req r2
      trace := t ++ [.afterStage, .afterAllStage, .doneStage]
      handlerInvoked := true }

/-- Modelled from the spec: HANDLER bounded by the effective timeout; on
timeout the eventual settlement of the handler is discarded (the result is
built from the pre-handler response only); a throwing handler becomes a
handlerError; when validateResponse is enabled and the requirements name a
response schema, a violating body becomes a responseValidationError. -/
def stageHandler (cfg : RouterConfig) (reqs : Requirements) (ep : EndpointHandler)
    (req : Request) (r : Response) (t : List Stage) : PipelineResult :=
  if effectiveTimeout cfg reqs < ep.duration then
    errorResult cfg req (t ++ [.handlerStage]) .timeoutError timeoutEntries r true
  else if ep.throws then
    errorResult cfg req (t ++ [.handlerStage]) .handlerError handlerErrorEntries r true
  else
    let r2 := ep.run req r
    if r2.hasErrors then
      errorResult cfg req (t ++ [.handlerStage]) .hookError r2.errors r2 true
    else
      match cfg.validateResponse, reqs.requiredResponse with
      | true, some ref =>
          match lookupSchema cfg.schemas ref with
          | some pred =>
              if responseBodyOk pred r2.body then stageAfter cfg reqs req r2 (t ++ [.handlerStage])
              else
                errorResult cfg req (t ++ [.handlerStage]) .responseValidationError
                  [responseEntry ref] r2 true
          | none => stageAfter cfg reqs req r2 (t ++ [.handlerStage])
      | _, _ => stageAfter cfg reqs req r2 (t ++ [.handlerStage])

/-- VALIDATE aggregates every violation before transitioning to ERROR. -/
def stageValidate (cfg : RouterConfig) (reqs : Requirements) (ep : EndpointHandler)
    (req : Request) (r : Response) (t : List Stage) : PipelineResult :=
  let viols := validateRequest cfg req reqs
  if viols.isEmpty then stageHandler cfg reqs ep req r (t ++ [.validateStage])
  else errorResult cfg req (t ++ [.validateStage]) .validationError viols r false

/-- Per-route BEFORE hooks. -/
def stageBefore (cfg : RouterConfig) (reqs : Requirements) (ep : EndpointHandler)
    (req : Request) (r : Response) (t : List Stage) : PipelineResult :=
  let r2 := runHooks reqs.before req r
  if r2.hasErrors then errorResult cfg req (t ++ [.beforeStage]) .hookError r2.errors r2 false
  else stageValidate cfg reqs ep req r2 (t ++ [.beforeStage])

/-- AUTH invokes the external auth collaborator; skipped when the route does
not request authentication; a failure becomes an authError. -/
def stageAuth (cfg : RouterConfig) (reqs : Requirements) (ep : EndpointHandler)
    (req : Request) (r : Response) (t : List Stage) : PipelineResult :=
  if reqs.auth then
    let r2 := applyHook cfg.withAuth req r
    if r2.hasErrors then errorResult cfg req (t ++ [.authStage]) .authError r2.errors r2 false
    else stageBefore cfg reqs ep req r2 (t ++ [.authStage])
  else stageBefore cfg reqs ep req r t

/-- Modelled from the spec: the middleware pipeline of section 4.2 for the
functional requirements surface, in the documented order BEFORE_ALL, AUTH,
BEFORE, VALIDATE, HANDLER, AFTER, AFTER_ALL, with ERROR reachable from any
stage (the engine source implementing it is missing from the corpus). -/
def runPipeline (cfg : RouterConfig) (reqs : Requirements) (ep : EndpointHandler)
    (req : Request) : PipelineResult :=
  let r1 := applyHook cfg.beforeAll req initResponse
  if r1.hasErrors then errorResult cfg req [.beforeAllStage] .hookError r1.errors r1 false
  else stageAuth cfg reqs ep req r1 [.beforeAllStage]

/-! ## Route resolution -/

/-- A path-pattern segment: static text or a bracketed named parameter. -/
inductive Seg where
  | fixed (s : String)
  | param (name : String)
deriving DecidableEq, Repr

def matchSeg : Seg → String → Bool
  | .fixed s, x => s = x
  | .param _, _ => true

def matchesPath : List Seg → List String → Bool
  | [], [] => true
  | s :: p, x :: xs => matchSeg s x && matchesPath p xs
  | _, _ => false

def isFixedSeg : Seg → Bool
  | .fixed _ => true
  | .param _ => false

/-- Number of static segments of a pattern, its specificity. -/
def staticCount (p : List Seg) : Nat := (p.filter isFixedSeg).length

/-- A registered route: method, path pattern and the handler it binds. -/
structure Route where
  method : String
  pattern : List Seg
  handlerId : Nat
deriving DecidableEq, Repr

def routeMatches (r : Route) (m : String) (p : List String) : Bool :=
  r.method = m && matchesPath r.pattern p

/-- Deterministic choice between candidates: the more specific (more static
segments) pattern wins; ties keep the earlier registration. -/
def pickBetter (best : Option Route) (r : Route) : Option Route :=
  match best with
  | none => some r
  | some b => if staticCount b.pattern < staticCount r.pattern then some r else some b

/-- Modelled from the spec: route resolution selects exactly one handler for a
method and concrete path, preferring the most specific (static) match when a
static and a dynamic segment both match at the same position (the resolver
source is missing from the corpus; the spec directs a deterministic
prefer-static policy). -/
def resolveRoute (routes : List Route) (m : String) (p : List String) : Option Route :=
  (routes.filter fun r => routeMatches r m p).foldl pickBetter none

def notFoundEntries : List ErrorEntry :=
  [{ keyPath := "url", message := "route not found" }]

def methodNotAllowedEntries : List ErrorEntry :=
  [{ keyPath := "method", message := "method not allowed" }]

/-- Modelled from the spec: the full routing step.  An unresolved path yields
a notFound outcome, a resolved path without the method a methodNotAllowed
outcome, and a resolved route drives the middleware pipeline; every outcome
is a structured response. -/
def routeEvent (cfg : RouterConfig) (routes : List Route)
    (endpoints : Nat → Requirements × EndpointHandler) (req : Request) : PipelineResult :=
  match resolveRoute routes req.method req.path with
  | some r => runPipeline cfg (endpoints r.handlerId).1 (endpoints r.handlerId).2 req
  | none =>
      if routes.any fun r => matchesPath r.pattern req.path then
        { response := applyHook cfg.afterAll req
            (finalizeError .methodNotAllowed methodNotAllowedEntries initResponse)
          trace := [.errorStage, .afterAllStage]
          handlerInvoked := false }
      else
        { response := applyHook cfg.afterAll req
            (finalizeError .notFound notFoundEntries initResponse)
          trace := [.errorStage, .afterAllStage]
          handlerInvoked := false }

/-! ## Decorator surface -/

/-- The argument record of the Validate decorator. -/
structure ValidationConfig where
  requiredHeaders : List String := []
  availableHeaders : List String := []
  requiredQuery : List String := []
  requiredPath : Option String := none
  requiredBody : Option String := none
  requiredResponse : Option String := none

/-- Modelled from the spec: the five method decorators of the decorator
surface (Before, Auth, Validate, Timeout, After) as declared in source
order. -/
inductive Decorator where
  | beforeDec (hooks : List Hook)
  | authDec (required : Bool)
  | validateDec (vc : ValidationConfig)
  | timeoutDec (ms : Nat)
  | afterDec (hooks : List Hook)

/-- The kind of a decorator, used to speak about distinct decorators. -/
inductive DKind where
  | beforeKind
  | authKind
  | validateKind
  | timeoutKind
  | afterKind
deriving DecidableEq, Repr

def kindOf : Decorator → DKind
  | .beforeDec _ => .beforeKind
  | .authDec _ => .authKind
  | .validateDec _ => .validateKind
  | .timeoutDec _ => .timeoutKind
  | .afterDec _ => .afterKind

/-- Modelled from the spec: reconciliation of one decorator into the
Requirements record consumed by the pipeline; hooks of repeated Before/After
decorators append in declared order, the other kinds each set their own
field. -/
def applyDecorator (acc : Requirements) : Decorator → Requirements
  | .beforeDec hs => { acc with before := acc.before ++ hs }
  | .afterDec hs => { acc with after := acc.after ++ hs }
  | .authDec b => { acc with auth := b }
  | .timeoutDec ms => { acc with timeout := some ms }
  | .validateDec vc =>
      { acc with
        requiredHeaders := vc.requiredHeaders
        availableHeaders := vc.availableHeaders
        requiredQuery := vc.requiredQuery
        requiredPath := vc.requiredPath
        requiredBody := vc.requiredBody
        requiredResponse := vc.requiredResponse }

/-- Modelled from the spec: the metadata reconciliation step that normalizes
the textual decorator order into one Requirements record. -/
def reconcile (ds : List Decorator) : Requirements :=
  ds.foldl applyDecorator {}

/-- Modelled from the spec: execution of one decorated method in the
documented decorator order (Before hooks, then Auth, then Validate, then the
handler bounded by Timeout, then After hooks), which depends on the declared
decorators only through the reconciled Requirements record. -/
def runDecoratedReqs (cfg : RouterConfig) (reqs : Requirements) (ep : EndpointHandler)
    (req : Request) : PipelineResult :=
  let r1 := runHooks reqs.before req initResponse
  if r1.hasErrors then errorResult cfg req [.beforeStage] .hookError r1.errors r1 false
  else if reqs.auth then
    let r2 := applyHook cfg.withAuth req r1
    if r2.hasErrors then
      errorResult cfg req [.beforeStage, .authStage] .authError r2.errors r2 false
    else stageValidate cfg reqs ep req r2 [.beforeStage, .authStage]
  else stageValidate cfg reqs ep req r1 [.beforeStage]

def runDecoratorPipeline (cfg : RouterConfig) (ds : List Decorator) (ep : EndpointHandler)
    (req : Request) : PipelineResult :=
  runDecoratedReqs cfg (reconcile ds) ep req

/-! ## Stage-order lemmas -/

/-- The stages the functional pipeline passes through, in order, with AUTH
present exactly when the route requests authentication. -/
def stageOrder (auth : Bool) : List Stage :=
  [.beforeAllStage] ++ (if auth then [.authStage] else [])
    ++ [.beforeStage, .validateStage, .handlerStage, .afterStage]

/-- The complete trace of a successful invocation. -/
def successTrace (auth : Bool) : List Stage :=
  stageOrder auth ++ [.afterAllStage, .doneStage]

/-- The stages of one decorated method in the documented decorator order,
with AUTH present exactly when an Auth decorator requested it. -/
def dStageOrder (auth : Bool) : List Stage :=
  [.beforeStage] ++ (if auth then [.authStage] else [])
    ++ [.validateStage, .handlerStage, .afterStage]

/-- The complete trace of a successful decorated invocation. -/
def dSuccessTrace (auth : Bool) : List Stage :=
  dStageOrder auth ++ [.afterAllStage, .doneStage]

/-- A well-formed outcome: either the error path finalized a structured error
payload and still ran AFTER_ALL last, or the invocation reached DONE without
ever entering the ERROR state. -/
def GoodResult (out : PipelineResult) : Prop :=
  (∃ k es, out.response.body = Body.errorPayload k es ∧
      out.trace.getLast? = some Stage.afterAllStage) ∨
  (Stage.errorStage ∉ out.trace ∧ out.trace.getLast? = some Stage.doneStage)


/-! ## Concrete instances used to evaluate the model -/

/-- A hook that leaves the response untouched. -/
def idHook : Hook := fun _ r => r

/-- A handler that answers 201 with a small data body after 5 time units. -/
def epW : EndpointHandler :=
  { run := fun _ r => { r with code := 201, body := .data 42 }, duration := 5 }

/-- A slow handler: settles with a data body only after 10 time units. -/
def epSlow : EndpointHandler :=
  { run := fun _ r => { r with body := .data 7 }, duration := 10 }

/-- A request to GET /grower with no headers and no query. -/
def reqW : Request :=
  { method := "GET", path := ["grower"], headers := [], query := [], pathParams := [], body := 0 }

/-- The same request carrying the header name in a different letter case than
the requirement (capital letters instead of lower case). -/
def reqCase : Request :=
  { reqW with headers := [("X-Onbehalf-Of", "user-1")] }

/-- An all-default router configuration. -/
def cfgW : RouterConfig := {}

/-- A router whose auth collaborator denies every request. -/
def cfgAuthDeny : RouterConfig :=
  { withAuth := some fun _ r =>
      { r with code := 401, errors := [{ keyPath := "auth", message := "unauthorized" }] } }

/-- A router with response validation enabled and one named response schema
accepting only the body value 1. -/
def cfgSchema : RouterConfig :=
  { validateResponse := true, schemas := [("post-grower-response", fun v => v == 1)] }

/-- Requirements demanding one header and one query parameter. -/
def reqsHdr : Requirements :=
  { requiredHeaders := ["x-onbehalf-of"], requiredQuery := ["requester_id"] }

/-- Requirements demanding only the lower-case header name. -/
def reqsCase : Requirements := { requiredHeaders := ["x-onbehalf-of"] }

/-- Requirements with a per-route timeout override of 5 time units. -/
def reqsTO : Requirements := { timeout := some 5 }

/-- Requirements naming a response schema. -/
def reqsResp : Requirements := { requiredResponse := some "post-grower-response" }

/-- A fully static registered route for GET /grower/abc. -/
def routeStatic : Route := { method := "GET", pattern := [.fixed "grower", .fixed "abc"], handlerId := 0 }

/-- A dynamic registered route for GET /grower/(id). -/
def routeDyn : Route := { method := "GET", pattern := [.fixed "grower", .param "id"], handlerId := 1 }

/-- A handler table mapping every id to default requirements and epW. -/
def endpointsW : Nat → Requirements × EndpointHandler := fun _ => ({}, epW)

theorem stageAfter_trace (cfg : RouterConfig) (reqs : Requirements) (req : Request)
    (r : Response) (t : List Stage) :
    (stageAfter cfg reqs req r t).trace = t ++ [.afterStage, .afterAllStage, .doneStage] ∨
    (stageAfter cfg reqs req r t).trace = t ++ [.afterStage, .errorStage, .afterAllStage] := by
  unfold stageAfter errorResult
  by_cases h : (runHooks reqs.after req r).hasErrors = true <;> simp [h]

theorem stageHandler_trace (cfg : RouterConfig) (reqs : Requirements) (ep : EndpointHandler)
    (req : Request) (r : Response) (t : List Stage) :
    (stageHandler cfg reqs ep req r t).trace = t ++ [.handlerStage, .afterStage, .afterAllStage, .doneStage] ∨
    (stageHandler cfg reqs ep req r t).trace = t ++ [.handlerStage, .afterStage, .errorStage, .afterAllStage] ∨
    (stageHandler cfg reqs ep req r t).trace = t ++ [.handlerStage, .errorStage, .afterAllStage] := by
  have hA := stageAfter_trace cfg reqs req (ep.run req r) (t ++ [.handlerStage])
  unfold stageHandler
  by_cases h1 : effectiveTimeout cfg reqs < ep.duration
  · simp [h1, errorResult]
  · by_cases h2 : ep.throws = true
    · simp [h1, h2, errorResult]
    · by_cases h3 : (ep.run req r).hasErrors = true
      · simp [h1, h2, h3, errorResult]
      · simp only [h1, h2, h3, if_false, if_neg, Bool.false_eq_true, ite_false]
        rcases hv : cfg.validateResponse with _ | _
        · rcases hA with h | h <;> simp [h1, h2, h3, hv, h]
        · rcases hr : reqs.requiredResponse with _ | ref
          · rcases hA with h | h <;> simp [h1, h2, h3, hv, hr, h]
          · rcases hs : lookupSchema cfg.schemas ref with _ | pred
            · rcases hA with h | h <;> simp [h1, h2, h3, hv, hr, hs, h]
            · by_cases hb : responseBodyOk pred (ep.run req r).body = true
              · rcases hA with h | h <;> simp [h1, h2, h3, hv, hr, hs, hb, h]
              · simp [h1, h2, h3, hv, hr, hs, hb, errorResult]

theorem stageValidate_trace (cfg : RouterConfig) (reqs : Requirements) (ep : EndpointHandler)
    (req : Request) (r : Response) (t : List Stage) :
    (stageValidate cfg reqs ep req r t).trace
        = t ++ [.validateStage, .handlerStage, .afterStage, .afterAllStage, .doneStage] ∨
    (stageValidate cfg reqs ep req r t).trace
        = t ++ [.validateStage, .handlerStage, .afterStage, .errorStage, .afterAllStage] ∨
    (stageValidate cfg reqs ep req r t).trace
        = t ++ [.validateStage, .handlerStage, .errorStage, .afterAllStage] ∨
    (stageValidate cfg reqs ep req r t).trace = t ++ [.validateStage, .errorStage, .afterAllStage] := by
  have hH := stageHandler_trace cfg reqs ep req r (t ++ [.validateStage])
  unfold stageValidate
  by_cases h : (validateRequest cfg req reqs).isEmpty = true
  · rcases hH with hh | hh | hh <;> simp [h, hh]
  · simp [h, errorResult]

theorem stageBefore_trace (cfg : RouterConfig) (reqs : Requirements) (ep : EndpointHandler)
    (req : Request) (r : Response) (t : List Stage) :
    (stageBefore cfg reqs ep req r t).trace
        = t ++ [.beforeStage, .validateStage, .handlerStage, .afterStage, .afterAllStage, .doneStage] ∨
    (stageBefore cfg reqs ep req r t).trace
        = t ++ [.beforeStage, .validateStage, .handlerStage, .afterStage, .errorStage, .afterAllStage] ∨
    (stageBefore cfg reqs ep req r t).trace
        = t ++ [.beforeStage, .validateStage, .handlerStage, .errorStage, .afterAllStage] ∨
    (stageBefore cfg reqs ep req r t).trace
        = t ++ [.beforeStage, .validateStage, .errorStage, .afterAllStage] ∨
    (stageBefore cfg reqs ep req r t).trace = t ++ [.beforeStage, .errorStage, .afterAllStage] := by
  have hV := stageValidate_trace cfg reqs ep req (runHooks reqs.before req r) (t ++ [.beforeStage])
  unfold stageBefore
  by_cases h : (runHooks reqs.before req r).hasErrors = true
  · simp [h, errorResult]
  · rcases hV with hh | hh | hh | hh <;> simp [h, hh]

/-- C2: for every request that resolves to a handler, the middleware pipeline
passes through its stages in exactly the order BEFORE_ALL, AUTH (present in
the stage order exactly when the requirements request authentication), BEFORE,
VALIDATE, HANDLER, AFTER, AFTER_ALL: every trace is either the full canonical
trace or a nonempty prefix of that order followed by the ERROR state and
AFTER_ALL, so ERROR is reachable from any stage and no other order occurs. -/
theorem middleware_execution_order (cfg : RouterConfig) (reqs : Requirements)
    (ep : EndpointHandler) (req : Request) :
    (runPipeline cfg reqs ep req).trace = successTrace reqs.auth ∨
    ∃ k, 1 ≤ k ∧ k ≤ (stageOrder reqs.auth).length ∧
      (runPipeline cfg reqs ep req).trace
        = (stageOrder reqs.auth).take k ++ [Stage.errorStage, Stage.afterAllStage] := by
  unfold runPipeline
  by_cases h0 : (applyHook cfg.beforeAll req initResponse).hasErrors = true
  · right
    refine ⟨1, le_refl 1, ?_, ?_⟩
    · cases hA : reqs.auth <;> simp [stageOrder]
    · cases hA : reqs.auth <;> simp [h0, errorResult, stageOrder]
  · unfold stageAuth
    cases hA : reqs.auth
    · have hB := stageBefore_trace cfg reqs ep req (applyHook cfg.beforeAll req initResponse)
        [.beforeAllStage]
      simp only [hA, if_false, Bool.false_eq_true, ite_false]
      rcases hB with hh | hh | hh | hh | hh
      · left; simp [h0, hh, successTrace, stageOrder, hA]
      · right; exact ⟨5, by omega, by simp [stageOrder, hA], by simp [h0, hh, stageOrder, hA]⟩
      · right; exact ⟨4, by omega, by simp [stageOrder, hA], by simp [h0, hh, stageOrder, hA]⟩
      · right; exact ⟨3, by omega, by simp [stageOrder, hA], by simp [h0, hh, stageOrder, hA]⟩
      · right; exact ⟨2, by omega, by simp [stageOrder, hA], by simp [h0, hh, stageOrder, hA]⟩
    · by_cases h1 : (applyHook cfg.withAuth req (applyHook cfg.beforeAll req initResponse)).hasErrors = true
      · right
        refine ⟨2, by omega, by simp [stageOrder, hA], ?_⟩
        simp [h0, h1, hA, errorResult, stageOrder]
      · have hB := stageBefore_trace cfg reqs ep req
          (applyHook cfg.withAuth req (applyHook cfg.beforeAll req initResponse))
          [.beforeAllStage, .authStage]
        rcases hB with hh | hh | hh | hh | hh
        · left; simp [h0, h1, hA, hh, successTrace, stageOrder]
        · right; exact ⟨6, by omega, by simp [stageOrder, hA], by simp [h0, h1, hA, hh, stageOrder]⟩
        · right; exact ⟨5, by omega, by simp [stageOrder, hA], by simp [h0, h1, hA, hh, stageOrder]⟩
        · right; exact ⟨4, by omega, by simp [stageOrder, hA], by simp [h0, h1, hA, hh, stageOrder]⟩
        · right; exact ⟨3, by omega, by simp [stageOrder, hA], by simp [h0, h1, hA, hh, stageOrder]⟩

/-! ## Well-formed outcomes (error recovery) -/

theorem getLast?_append_two (t : List Stage) (a b : Stage) :
    (t ++ [a, b]).getLast? = some b := by
  rw [show t ++ [a, b] = (t ++ [a]) ++ [b] by simp]
  exact List.getLast?_concat _

theorem getLast?_append_three (t : List Stage) (a b c : Stage) :
    (t ++ [a, b, c]).getLast? = some c := by
  rw [show t ++ [a, b, c] = (t ++ [a, b]) ++ [c] by simp]
  exact List.getLast?_concat _

theorem getLast?_append_four (t : List Stage) (a b c d : Stage) :
    (t ++ [a, b, c, d]).getLast? = some d := by
  rw [show t ++ [a, b, c, d] = (t ++ [a, b, c]) ++ [d] by simp]
  exact List.getLast?_concat _

theorem errorResult_good (cfg : RouterConfig) (req : Request) (t : List Stage)
    (kind : ErrorKind) (es : List ErrorEntry) (r : Response) (inv : Bool)
    (hA : cfg.afterAll = none) : GoodResult (errorResult cfg req t kind es r inv) := by
  left
  exact ⟨kind, es, by simp [errorResult, hA, applyHook, finalizeError],
    by simp [errorResult, getLast?_append_two]⟩

theorem stageAfter_good (cfg : RouterConfig) (reqs : Requirements) (req : Request)
    (r : Response) (t : List Stage) (hA : cfg.afterAll = none)
    (ht : Stage.errorStage ∉ t) : GoodResult (stageAfter cfg reqs req r t) := by
  unfold stageAfter
  by_cases h : (runHooks reqs.after req r).hasErrors = true
  · simp only [h, if_true]
    exact errorResult_good _ _ _ _ _ _ _ hA
  · right
    constructor
    · simp [h, List.mem_append, ht]
    · simp [h, getLast?_append_three]

theorem stageHandler_good (cfg : RouterConfig) (reqs : Requirements) (ep : EndpointHandler)
    (req : Request) (r : Response) (t : List Stage) (hA : cfg.afterAll = none)
    (ht : Stage.errorStage ∉ t) : GoodResult (stageHandler cfg reqs ep req r t) := by
  have ht2 : Stage.errorStage ∉ t ++ [Stage.handlerStage] := by
    simp [List.mem_append, ht]
  unfold stageHandler
  by_cases h1 : effectiveTimeout cfg reqs < ep.duration
  · simp only [h1, if_true]; exact errorResult_good _ _ _ _ _ _ _ hA
  · by_cases h2 : ep.throws = true
    · simp only [h1, h2, if_false, if_true]
      exact errorResult_good _ _ _ _ _ _ _ hA
    · by_cases h3 : (ep.run req r).hasErrors = true
      · simp only [h1, h2, h3, if_false, if_true, Bool.false_eq_true, ite_false, ite_true]
        exact errorResult_good _ _ _ _ _ _ _ hA
      · simp only [h1, h2, h3, if_false, Bool.false_eq_true, ite_false]
        rcases hv : cfg.validateResponse with _ | _
        · exact stageAfter_good _ _ _ _ _ hA ht2
        · rcases hr : reqs.requiredResponse with _ | ref
          · exact stageAfter_good _ _ _ _ _ hA ht2
          · rcases hs : lookupSchema cfg.schemas ref with _ | pred
            · simp only [hs]
              exact stageAfter_good _ _ _ _ _ hA ht2
            · simp only [hs]
              by_cases hb : responseBodyOk pred (ep.run req r).body = true
              · simp only [hb, if_true]
                exact stageAfter_good _ _ _ _ _ hA ht2
              · simp only [hb, Bool.false_eq_true, ite_false]
                exact errorResult_good _ _ _ _ _ _ _ hA

theorem stageValidate_good (cfg : RouterConfig) (reqs : Requirements) (ep : EndpointHandler)
    (req : Request) (r : Response) (t : List Stage) (hA : cfg.afterAll = none)
    (ht : Stage.errorStage ∉ t) : GoodResult (stageValidate cfg reqs ep req r t) := by
  have ht2 : Stage.errorStage ∉ t ++ [Stage.validateStage] := by
    simp [List.mem_append, ht]
  unfold stageValidate
  by_cases h : (validateRequest cfg req reqs).isEmpty = true
  · simp only [h, if_true]
    exact stageHandler_good _ _ _ _ _ _ hA ht2
  · simp only [h, Bool.false_eq_true, ite_false]
    exact errorResult_good _ _ _ _ _ _ _ hA

theorem stageBefore_good (cfg : RouterConfig) (reqs : Requirements) (ep : EndpointHandler)
    (req : Request) (r : Response) (t : List Stage) (hA : cfg.afterAll = none)
    (ht : Stage.errorStage ∉ t) : GoodResult (stageBefore cfg reqs ep req r t) := by
  have ht2 : Stage.errorStage ∉ t ++ [Stage.beforeStage] := by
    simp [List.mem_append, ht]
  unfold stageBefore
  by_cases h : (runHooks reqs.before req r).hasErrors = true
  · simp only [h, if_true]
    exact errorResult_good _ _ _ _ _ _ _ hA
  · simp only [h, Bool.false_eq_true, ite_false]
    exact stageValidate_good _ _ _ _ _ _ hA ht2

theorem stageAuth_good (cfg : RouterConfig) (reqs : Requirements) (ep : EndpointHandler)
    (req : Request) (r : Response) (t : List Stage) (hA : cfg.afterAll = none)
    (ht : Stage.errorStage ∉ t) : GoodResult (stageAuth cfg reqs ep req r t) := by
  have ht2 : Stage.errorStage ∉ t ++ [Stage.authStage] := by
    simp [List.mem_append, ht]
  unfold stageAuth
  by_cases hAu : reqs.auth = true
  · simp only [hAu, if_true]
    by_cases h : (applyHook cfg.withAuth req r).hasErrors = true
    · simp only [h, if_true]
      exact errorResult_good _ _ _ _ _ _ _ hA
    · simp only [h, Bool.false_eq_true, ite_false]
      exact stageBefore_good _ _ _ _ _ _ hA ht2
  · simp only [hAu, Bool.false_eq_true, ite_false]
    exact stageBefore_good _ _ _ _ _ _ hA ht

theorem runPipeline_good (cfg : RouterConfig) (reqs : Requirements) (ep : EndpointHandler)
    (req : Request) (hA : cfg.afterAll = none) : GoodResult (runPipeline cfg reqs ep req) := by
  unfold runPipeline
  by_cases h : (applyHook cfg.beforeAll req initResponse).hasErrors = true
  · simp only [h, if_true]
    exact errorResult_good _ _ _ _ _ _ _ hA
  · simp only [h, Bool.false_eq_true, ite_false]
    exact stageAuth_good _ _ _ _ _ _ hA (by simp)

/-! ## Reaching individual stages under a plain configuration -/

theorem runPipeline_simple (cfg : RouterConfig) (reqs : Requirements) (ep : EndpointHandler)
    (req : Request) (h1 : cfg.beforeAll = none) (h2 : reqs.auth = false)
    (h3 : reqs.before = []) :
    runPipeline cfg reqs ep req
      = stageValidate cfg reqs ep req initResponse [.beforeAllStage, .beforeStage] := by
  unfold runPipeline stageAuth stageBefore
  simp [h1, h2, h3, applyHook, runHooks, initResponse, Response.hasErrors]

theorem validate_stage_error (cfg : RouterConfig) (reqs : Requirements) (ep : EndpointHandler)
    (req : Request) (h1 : cfg.beforeAll = none) (h2 : cfg.afterAll = none)
    (h3 : reqs.auth = false) (h4 : reqs.before = [])
    (h5 : validateRequest cfg req reqs ≠ []) :
    (runPipeline cfg reqs ep req).response.body
        = Body.errorPayload .validationError (validateRequest cfg req reqs) ∧
    (runPipeline cfg reqs ep req).response.code = 400 ∧
    (runPipeline cfg reqs ep req).handlerInvoked = false := by
  rw [runPipeline_simple cfg reqs ep req h1 h3 h4]
  unfold stageValidate
  have hne : (validateRequest cfg req reqs).isEmpty = false := by
    simpa [List.isEmpty_iff] using h5
  simp [hne, errorResult, h2, applyHook, finalizeError, initResponse, defaultCode]

theorem handler_stage_simple (cfg : RouterConfig) (reqs : Requirements) (ep : EndpointHandler)
    (req : Request) (h1 : cfg.beforeAll = none) (h2 : reqs.auth = false)
    (h3 : reqs.before = []) (h4 : validateRequest cfg req reqs = []) :
    runPipeline cfg reqs ep req
      = stageHandler cfg reqs ep req initResponse
          [.beforeAllStage, .beforeStage, .validateStage] := by
  rw [runPipeline_simple cfg reqs ep req h1 h2 h3]
  unfold stageValidate
  simp [h4]

/-! ## Claim C8 -/

/-- C8: for every inbound event routing terminates in a well-formed structured
response: whenever the ERROR state is entered the final body is a structured
error payload (never an unhandled failure), and every path ends in the
AFTER_ALL or DONE terminal marker. -/
theorem routing_never_unhandled (cfg : RouterConfig) (routes : List Route)
    (endpoints : Nat → Requirements × EndpointHandler) (req : Request)
    (hA : cfg.afterAll = none) :
    (Stage.errorStage ∈ (routeEvent cfg routes endpoints req).trace →
      ∃ k es, (routeEvent cfg routes endpoints req).response.body = Body.errorPayload k es) ∧
    ((routeEvent cfg routes endpoints req).trace.getLast? = some Stage.afterAllStage ∨
      (routeEvent cfg routes endpoints req).trace.getLast? = some Stage.doneStage) := by
  unfold routeEvent
  rcases hres : resolveRoute routes req.method req.path with _ | r
  · by_cases hp : (routes.any fun r => matchesPath r.pattern req.path) = true
    · refine ⟨fun _ => ⟨.methodNotAllowed, methodNotAllowedEntries, ?_⟩, ?_⟩
      · simp [hp, hA, applyHook, finalizeError]
      · left; simp [hp]
    · refine ⟨fun _ => ⟨.notFound, notFoundEntries, ?_⟩, ?_⟩
      · simp [hp, hA, applyHook, finalizeError]
      · left; simp [hp]
  · have hg := runPipeline_good cfg (endpoints r.handlerId).1 (endpoints r.handlerId).2 req hA
    rcases hg with ⟨k, es, hb, hl⟩ | ⟨hm, hl⟩
    · exact ⟨fun _ => ⟨k, es, hb⟩, Or.inl hl⟩
    · exact ⟨fun hmem => absurd hmem hm, Or.inr hl⟩

/-- Witness for C8 at a concrete router with no routes: the request falls to
the notFound outcome and the conjunction holds. -/
theorem routing_never_unhandled_witness :
    (Stage.errorStage ∈ (routeEvent cfgW [] endpointsW reqW).trace →
      ∃ k es, (routeEvent cfgW [] endpointsW reqW).response.body = Body.errorPayload k es) ∧
    ((routeEvent cfgW [] endpointsW reqW).trace.getLast? = some Stage.afterAllStage ∨
      (routeEvent cfgW [] endpointsW reqW).trace.getLast? = some Stage.doneStage) :=
  routing_never_unhandled cfgW [] endpointsW reqW rfl

/-! ## Claim C4 -/

/-- C4: the VALIDATE stage runs all applicable checks and, when any fail, the
pipeline transitions to ERROR carrying every aggregated violation in one
combined validation-error payload (never just the first failure): the final
body lists the full aggregate, and each missing required header and each
missing required query entry contributes its own violation to that list. -/
theorem validation_aggregates_all_failures (cfg : RouterConfig) (reqs : Requirements)
    (ep : EndpointHandler) (req : Request) (h1 : cfg.beforeAll = none)
    (h2 : cfg.afterAll = none) (h3 : reqs.auth = false) (h4 : reqs.before = [])
    (h5 : validateRequest cfg req reqs ≠ []) :
    (runPipeline cfg reqs ep req).response.body
        = Body.errorPayload .validationError (validateRequest cfg req reqs) ∧
    (runPipeline cfg reqs ep req).handlerInvoked = false ∧
    (∀ h, h ∈ reqs.requiredHeaders → hasKey req.headers h = false →
      mkHeaderEntry h ∈ validateRequest cfg req reqs) ∧
    (∀ q, q ∈ reqs.requiredQuery → hasKey req.query q = false →
      mkQueryEntry q ∈ validateRequest cfg req reqs) := by
  obtain ⟨hb, _, hi⟩ := validate_stage_error cfg reqs ep req h1 h2 h3 h4 h5
  refine ⟨hb, hi, ?_, ?_⟩
  · intro h hm hk
    have : mkHeaderEntry h ∈ headerViolations req reqs := by
      unfold headerViolations
      exact List.mem_filterMap.mpr ⟨h, hm, by simp [hk]⟩
    unfold validateRequest
    simp [this]
  · intro q hm hk
    have : mkQueryEntry q ∈ queryViolations req reqs := by
      unfold queryViolations
      exact List.mem_filterMap.mpr ⟨q, hm, by simp [hk]⟩
    unfold validateRequest
    simp [this]

/-- Witness for C4: a request missing both the required header and the
required query parameter is rejected with the two violations aggregated. -/
theorem validation_aggregates_all_failures_witness :
    (runPipeline cfgW reqsHdr epW reqW).response.body
        = Body.errorPayload .validationError (validateRequest cfgW reqW reqsHdr) ∧
    (runPipeline cfgW reqsHdr epW reqW).handlerInvoked = false ∧
    (∀ h, h ∈ reqsHdr.requiredHeaders → hasKey reqW.headers h = false →
      mkHeaderEntry h ∈ validateRequest cfgW reqW reqsHdr) ∧
    (∀ q, q ∈ reqsHdr.requiredQuery → hasKey reqW.query q = false →
      mkQueryEntry q ∈ validateRequest cfgW reqW reqsHdr) :=
  validation_aggregates_all_failures cfgW reqsHdr epW reqW rfl rfl rfl rfl (by decide)

/-! ## Claim C10 -/

/-- C10: requiredHeaders matching is case-sensitive: a required header name h
for which every request header key differs from h (even if only in letter
case) produces a missing-header violation, and the request is rejected with a
validation error before the handler is invoked. -/
theorem required_headers_case_sensitive (cfg : RouterConfig) (reqs : Requirements)
    (ep : EndpointHandler) (req : Request) (h : String) (h1 : cfg.beforeAll = none)
    (h2 : cfg.afterAll = none) (h3 : reqs.auth = false) (h4 : reqs.before = [])
    (hm : h ∈ reqs.requiredHeaders) (hk : ∀ kv ∈ req.headers, kv.1 ≠ h) :
    mkHeaderEntry h ∈ validateRequest cfg req reqs ∧
    (runPipeline cfg reqs ep req).response.body
        = Body.errorPayload .validationError (validateRequest cfg req reqs) ∧
    (runPipeline cfg reqs ep req).handlerInvoked = false := by
  have hnk : hasKey req.headers h = false := by
    unfold hasKey
    rw [List.any_eq_false]
    intro kv hkv
    simpa using hk kv hkv
  have hmem : mkHeaderEntry h ∈ validateRequest cfg req reqs := by
    have : mkHeaderEntry h ∈ headerViolations req reqs := by
      unfold headerViolations
      exact List.mem_filterMap.mpr ⟨h, hm, by simp [hnk]⟩
    unfold validateRequest
    simp [this]
  have hne : validateRequest cfg req reqs ≠ [] := by
    intro hcontra
    rw [hcontra] at hmem
    simp at hmem
  obtain ⟨hb, _, hi⟩ := validate_stage_error cfg reqs ep req h1 h2 h3 h4 hne
  exact ⟨hmem, hb, hi⟩

/-- Witness for C10: the request carries X-Onbehalf-Of while the requirement
names x-onbehalf-of; the header only matches up to letter case, so the
request is rejected as missing the required header. -/
theorem required_headers_case_sensitive_witness :
    mkHeaderEntry "x-onbehalf-of" ∈ validateRequest cfgW reqCase reqsCase ∧
    (runPipeline cfgW reqsCase epW reqCase).response.body
        = Body.errorPayload .validationError (validateRequest cfgW reqCase reqsCase) ∧
    (runPipeline cfgW reqsCase epW reqCase).handlerInvoked = false :=
  required_headers_case_sensitive cfgW reqsCase epW reqCase "x-onbehalf-of"
    rfl rfl rfl rfl (by decide) (by decide)

/-! ## Claim C5 -/

/-- C5: the effective timeout is the per-route override when configured and
otherwise the global router timeout; a handler that has not settled when the
effective timeout elapses yields the TimeoutError response, and the result is
completely independent of the handler function, so a late-settling handler
result can never overwrite the finalized timeout response. -/
theorem timeout_override_and_no_overwrite (cfg : RouterConfig) (reqs : Requirements)
    (ep : EndpointHandler) (req : Request) (h1 : cfg.beforeAll = none)
    (h2 : cfg.afterAll = none) (h3 : reqs.auth = false) (h4 : reqs.before = [])
    (h5 : validateRequest cfg req reqs = [])
    (h6 : effectiveTimeout cfg reqs < ep.duration) :
    (∀ t, reqs.timeout = some t → effectiveTimeout cfg reqs = t) ∧
    (reqs.timeout = none → effectiveTimeout cfg reqs = cfg.timeout) ∧
    (runPipeline cfg reqs ep req).response.body
        = Body.errorPayload .timeoutError timeoutEntries ∧
    (runPipeline cfg reqs ep req).response.code = 408 ∧
    (∀ f, runPipeline cfg reqs { ep with run := f } req = runPipeline cfg reqs ep req) := by
  refine ⟨?_, ?_, ?_, ?_, ?_⟩
  · intro t ht
    simp [effectiveTimeout, ht]
  · intro ht
    simp [effectiveTimeout, ht]
  · rw [handler_stage_simple cfg reqs ep req h1 h3 h4 h5]
    unfold stageHandler
    simp [h6, errorResult, h2, applyHook, finalizeError, initResponse, defaultCode]
  · rw [handler_stage_simple cfg reqs ep req h1 h3 h4 h5]
    unfold stageHandler
    simp [h6, errorResult, h2, applyHook, finalizeError, initResponse, defaultCode]
  · intro f
    rw [handler_stage_simple cfg reqs ep req h1 h3 h4 h5,
      handler_stage_simple cfg reqs { ep with run := f } req h1 h3 h4 h5]
    unfold stageHandler
    simp [h6]

/-- Witness for C5: the route override of 5 time units wins over the global
30000 and the 10-unit handler is cut off with a TimeoutError. -/
theorem timeout_override_and_no_overwrite_witness :
    (∀ t, reqsTO.timeout = some t → effectiveTimeout cfgW reqsTO = t) ∧
    (reqsTO.timeout = none → effectiveTimeout cfgW reqsTO = cfgW.timeout) ∧
    (runPipeline cfgW reqsTO epSlow reqW).response.body
        = Body.errorPayload .timeoutError timeoutEntries ∧
    (runPipeline cfgW reqsTO epSlow reqW).response.code = 408 ∧
    (∀ f, runPipeline cfgW reqsTO { epSlow with run := f } reqW
        = runPipeline cfgW reqsTO epSlow reqW) :=
  timeout_override_and_no_overwrite cfgW reqsTO epSlow reqW rfl rfl rfl rfl rfl (by decide)

/-! ## Claim C6 -/

/-- C6: with validateResponse enabled and a response schema referenced by the
requirements, a handler body that violates the schema turns the outcome into
a ResponseValidationError payload even though the handler succeeded, and the
final body can never be the handler data body. -/
theorem response_validation_blocks_body (cfg : RouterConfig) (reqs : Requirements)
    (ep : EndpointHandler) (req : Request) (ref : String) (pred : Nat → Bool)
    (h1 : cfg.beforeAll = none) (h2 : cfg.afterAll = none) (h3 : reqs.auth = false)
    (h4 : reqs.before = []) (h5 : validateRequest cfg req reqs = [])
    (h6 : ep.duration ≤ effectiveTimeout cfg reqs) (h7 : ep.throws = false)
    (h8 : (ep.run req initResponse).hasErrors = false)
    (h9 : cfg.validateResponse = true) (h10 : reqs.requiredResponse = some ref)
    (h11 : lookupSchema cfg.schemas ref = some pred)
    (h12 : responseBodyOk pred (ep.run req initResponse).body = false) :
    (runPipeline cfg reqs ep req).response.body
        = Body.errorPayload .responseValidationError [responseEntry ref] ∧
    ∀ v, (runPipeline cfg reqs ep req).response.body ≠ Body.data v := by
  have hno : ¬ effectiveTimeout cfg reqs < ep.duration := Nat.not_lt.mpr h6
  have hb : (runPipeline cfg reqs ep req).response.body
      = Body.errorPayload .responseValidationError [responseEntry ref] := by
    rw [handler_stage_simple cfg reqs ep req h1 h3 h4 h5]
    unfold stageHandler
    simp [hno, h7, h8, h9, h10, h11, h12, errorResult, h2, applyHook, finalizeError]
  exact ⟨hb, fun v => by rw [hb]; exact fun hcontra => Body.noConfusion hcontra⟩

/-- Witness for C6: the handler returns body value 42 while the referenced
schema accepts only 1, so the outcome is the ResponseValidationError payload
and not the handler body. -/
theorem response_validation_blocks_body_witness :
    (runPipeline cfgSchema reqsResp epW reqW).response.body
        = Body.errorPayload .responseValidationError [responseEntry "post-grower-response"] ∧
    ∀ v, (runPipeline cfgSchema reqsResp epW reqW).response.body ≠ Body.data v :=
  response_validation_blocks_body cfgSchema reqsResp epW reqW "post-grower-response"
    (fun v => v == 1) rfl rfl rfl rfl rfl (by decide) rfl (by decide) rfl rfl rfl (by decide)

/-! ## Claim C9 -/

/-- C9: a request matching a route with empty requirements and valid inputs
round-trips the handler output unchanged: the final response is exactly the
response the handler produced (same body, same status code), untouched by
any pipeline stage. -/
theorem empty_requirements_round_trip (cfg : RouterConfig) (ep : EndpointHandler)
    (req : Request) (h1 : cfg.beforeAll = none) (h2 : cfg.afterAll = none)
    (h3 : ep.throws = false) (h4 : ep.duration ≤ cfg.timeout)
    (h5 : (ep.run req initResponse).hasErrors = false) :
    (runPipeline cfg {} ep req).response = ep.run req initResponse ∧
    (runPipeline cfg {} ep req).handlerInvoked = true := by
  have hval : validateRequest cfg req {} = [] := rfl
  have hno : ¬ effectiveTimeout cfg ({} : Requirements) < ep.duration := by
    simpa [effectiveTimeout] using Nat.not_lt.mpr h4
  rw [handler_stage_simple cfg {} ep req h1 rfl rfl hval]
  unfold stageHandler stageAfter
  simp [hno, h3, h5, runHooks, h2, applyHook]

/-- Witness for C9: the handler sets code 201 and a data body, and the final
response is exactly that. -/
theorem empty_requirements_round_trip_witness :
    (runPipeline cfgW {} epW reqW).response = epW.run reqW initResponse ∧
    (runPipeline cfgW {} epW reqW).handlerInvoked = true :=
  empty_requirements_round_trip cfgW epW reqW rfl rfl rfl (by decide) rfl

/-! ## Claim C7 -/

theorem auth_fun_form (cfg : RouterConfig) (ep : EndpointHandler) (req : Request)
    (h1 : cfg.beforeAll = none)
    (hden : (applyHook cfg.withAuth req initResponse).hasErrors = true) :
    runPipeline cfg { auth := true } ep req
      = errorResult cfg req [.beforeAllStage, .authStage] .authError
          (applyHook cfg.withAuth req initResponse).errors
          (applyHook cfg.withAuth req initResponse) false := by
  unfold runPipeline stageAuth
  simp only [h1]
  simp only [show applyHook none req initResponse = initResponse from rfl]
  simp only [show initResponse.hasErrors = false from rfl, Bool.false_eq_true, ite_false]
  simp only [show ({ auth := true } : Requirements).auth = true from rfl, ite_true]
  simp only [hden, ite_true]
  rfl

theorem auth_dec_form (cfg : RouterConfig) (ep : EndpointHandler) (req : Request)
    (hden : (applyHook cfg.withAuth req initResponse).hasErrors = true) :
    runDecoratorPipeline cfg [Decorator.authDec true] ep req
      = errorResult cfg req [.beforeStage, .authStage] .authError
          (applyHook cfg.withAuth req initResponse).errors
          (applyHook cfg.withAuth req initResponse) false := by
  unfold runDecoratorPipeline runDecoratedReqs
  simp only [show reconcile [Decorator.authDec true] = ({ auth := true } : Requirements) from rfl]
  simp only [show runHooks ({ auth := true } : Requirements).before req initResponse = initResponse from rfl]
  simp only [show initResponse.hasErrors = false from rfl, Bool.false_eq_true, ite_false]
  simp only [show ({ auth := true } : Requirements).auth = true from rfl, ite_true]
  simp only [hden, ite_true]

/-- C7: the decorator surface and the functional requirements surface are
behaviorally equivalent for authentication: when the auth collaborator denies
the request, both the functional pipeline run with auth set in requirements
and the decorated run with an Auth decorator produce the identical AuthError
response, and neither invokes the handler. -/
theorem auth_surfaces_equivalent (cfg : RouterConfig) (ep : EndpointHandler) (req : Request)
    (h1 : cfg.beforeAll = none) (h2 : cfg.afterAll = none)
    (hden : (applyHook cfg.withAuth req initResponse).hasErrors = true) :
    (runPipeline cfg { auth := true } ep req).response
        = (runDecoratorPipeline cfg [Decorator.authDec true] ep req).response ∧
    (runPipeline cfg { auth := true } ep req).response.body
        = Body.errorPayload .authError (applyHook cfg.withAuth req initResponse).errors ∧
    (runPipeline cfg { auth := true } ep req).handlerInvoked = false ∧
    (runDecoratorPipeline cfg [Decorator.authDec true] ep req).handlerInvoked = false ∧
    Stage.handlerStage ∉ (runPipeline cfg { auth := true } ep req).trace ∧
    Stage.handlerStage ∉ (runDecoratorPipeline cfg [Decorator.authDec true] ep req).trace := by
  rw [auth_fun_form cfg ep req h1 hden, auth_dec_form cfg ep req hden]
  refine ⟨rfl, by simp [errorResult, h2, applyHook, finalizeError], rfl, rfl, ?_, ?_⟩
  · simp [errorResult]
  · simp [errorResult]

/-- Witness for C7 at the denying auth collaborator: both surfaces reject the
request with the same AuthError response and the handler never runs. -/
theorem auth_surfaces_equivalent_witness :
    (runPipeline cfgAuthDeny { auth := true } epW reqW).response
        = (runDecoratorPipeline cfgAuthDeny [Decorator.authDec true] epW reqW).response ∧
    (runPipeline cfgAuthDeny { auth := true } epW reqW).response.body
        = Body.errorPayload .authError (applyHook cfgAuthDeny.withAuth reqW initResponse).errors ∧
    (runPipeline cfgAuthDeny { auth := true } epW reqW).handlerInvoked = false ∧
    (runDecoratorPipeline cfgAuthDeny [Decorator.authDec true] epW reqW).handlerInvoked = false ∧
    Stage.handlerStage ∉ (runPipeline cfgAuthDeny { auth := true } epW reqW).trace ∧
    Stage.handlerStage ∉ (runDecoratorPipeline cfgAuthDeny [Decorator.authDec true] epW reqW).trace :=
  auth_surfaces_equivalent cfgAuthDeny epW reqW rfl rfl (by decide)

/-! ## Claim C1 -/

theorem applyDecorator_comm (acc : Requirements) (a b : Decorator)
    (h : kindOf a ≠ kindOf b) :
    applyDecorator (applyDecorator acc a) b = applyDecorator (applyDecorator acc b) a := by
  cases a <;> cases b <;> first
  | exact absurd rfl h
  | rfl

theorem reconcile_swap (pre post : List Decorator) (a b : Decorator)
    (h : kindOf a ≠ kindOf b) :
    reconcile (pre ++ a :: b :: post) = reconcile (pre ++ b :: a :: post) := by
  unfold reconcile
  rw [List.foldl_append, List.foldl_append]
  simp only [List.foldl_cons]
  rw [applyDecorator_comm _ a b h]

theorem runDecoratedReqs_trace (cfg : RouterConfig) (reqs : Requirements)
    (ep : EndpointHandler) (req : Request) :
    (runDecoratedReqs cfg reqs ep req).trace = dSuccessTrace reqs.auth ∨
    ∃ k, 1 ≤ k ∧ k ≤ (dStageOrder reqs.auth).length ∧
      (runDecoratedReqs cfg reqs ep req).trace
        = (dStageOrder reqs.auth).take k ++ [Stage.errorStage, Stage.afterAllStage] := by
  unfold runDecoratedReqs
  by_cases h0 : (runHooks reqs.before req initResponse).hasErrors = true
  · right
    refine ⟨1, le_refl 1, ?_, ?_⟩
    · cases hA : reqs.auth <;> simp [dStageOrder]
    · cases hA : reqs.auth <;> simp [h0, errorResult, dStageOrder]
  · cases hA : reqs.auth
    · have hV := stageValidate_trace cfg reqs ep req (runHooks reqs.before req initResponse)
        [.beforeStage]
      rcases hV with hh | hh | hh | hh
      · left; simp [h0, hA, hh, dSuccessTrace, dStageOrder]
      · right; exact ⟨4, by omega, by simp [dStageOrder, hA], by simp [h0, hA, hh, dStageOrder]⟩
      · right; exact ⟨3, by omega, by simp [dStageOrder, hA], by simp [h0, hA, hh, dStageOrder]⟩
      · right; exact ⟨2, by omega, by simp [dStageOrder, hA], by simp [h0, hA, hh, dStageOrder]⟩
    · by_cases h1 : (applyHook cfg.withAuth req (runHooks reqs.before req initResponse)).hasErrors = true
      · right
        refine ⟨2, by omega, by simp [dStageOrder, hA], ?_⟩
        simp [h0, h1, hA, errorResult, dStageOrder]
      · have hV := stageValidate_trace cfg reqs ep req
          (applyHook cfg.withAuth req (runHooks reqs.before req initResponse))
          [.beforeStage, .authStage]
        rcases hV with hh | hh | hh | hh
        · left; simp [h0, h1, hA, hh, dSuccessTrace, dStageOrder]
        · right; exact ⟨5, by omega, by simp [dStageOrder, hA], by simp [h0, h1, hA, hh, dStageOrder]⟩
        · right; exact ⟨4, by omega, by simp [dStageOrder, hA], by simp [h0, h1, hA, hh, dStageOrder]⟩
        · right; exact ⟨3, by omega, by simp [dStageOrder, hA], by simp [h0, h1, hA, hh, dStageOrder]⟩

/-- C1: for every combination of the Before, Auth, Validate, Timeout and
After decorators on one method, execution follows the canonical pipeline
order (before-hooks, then the auth check, then validation, then the handler
bounded by its timeout, then after-hooks): every trace is the canonical
decorated trace or a prefix of that order ended by ERROR, and swapping two
textually adjacent decorators of different kinds never changes the result,
so any textual ordering of the declared decorators executes identically. -/
theorem decorator_order_canonical (cfg : RouterConfig) (ds : List Decorator)
    (ep : EndpointHandler) (req : Request) :
    ((runDecoratorPipeline cfg ds ep req).trace = dSuccessTrace (reconcile ds).auth ∨
      ∃ k, 1 ≤ k ∧ k ≤ (dStageOrder (reconcile ds).auth).length ∧
        (runDecoratorPipeline cfg ds ep req).trace
          = (dStageOrder (reconcile ds).auth).take k ++ [Stage.errorStage, Stage.afterAllStage]) ∧
    ∀ pre post a b, kindOf a ≠ kindOf b →
      runDecoratorPipeline cfg (pre ++ a :: b :: post) ep req
        = runDecoratorPipeline cfg (pre ++ b :: a :: post) ep req := by
  constructor
  · exact runDecoratedReqs_trace cfg (reconcile ds) ep req
  · intro pre post a b h
    unfold runDecoratorPipeline
    rw [reconcile_swap pre post a b h]

/-- Witness for C1: writing the Auth decorator before the Timeout decorator
or after it yields the same execution result on a concrete request. -/
theorem decorator_order_canonical_witness :
    runDecoratorPipeline cfgW ([] ++ Decorator.authDec true :: Decorator.timeoutDec 5000 :: [])
        epW reqW
      = runDecoratorPipeline cfgW ([] ++ Decorator.timeoutDec 5000 :: Decorator.authDec true :: [])
        epW reqW :=
  (decorator_order_canonical cfgW [Decorator.authDec true, Decorator.timeoutDec 5000] epW reqW).2
    [] [] (Decorator.authDec true) (Decorator.timeoutDec 5000) (by decide)

/-! ## Claim C3 -/

theorem foldl_pickBetter_eq_or_mem (l : List Route) (acc : Option Route) :
    l.foldl pickBetter acc = acc ∨ ∃ r ∈ l, l.foldl pickBetter acc = some r := by
  induction l generalizing acc with
  | nil => left; rfl
  | cons x xs ih =>
    simp only [List.foldl_cons]
    rcases ih (pickBetter acc x) with h | h
    · rw [h]
      cases acc with
      | none => right; exact ⟨x, by simp, rfl⟩
      | some b =>
          by_cases hc : staticCount b.pattern < staticCount x.pattern
          · right; exact ⟨x, by simp, by simp [pickBetter, hc]⟩
          · left; simp [pickBetter, hc]
    · rcases h with ⟨r, hr, he⟩
      right; exact ⟨r, by simp [hr], he⟩

theorem foldl_pickBetter_isSome (l : List Route) (acc : Option Route)
    (h : acc.isSome = true) : (l.foldl pickBetter acc).isSome = true := by
  induction l generalizing acc with
  | nil => exact h
  | cons x xs ih =>
    simp only [List.foldl_cons]
    apply ih
    cases acc with
    | none => simp at h
    | some b =>
        by_cases hc : staticCount b.pattern < staticCount x.pattern <;> simp [pickBetter, hc]

/-- C3: route resolution selects at most one handler (an Option) and it is
sound (the selected route is registered and matches the request); whenever
some registered route matches, resolution does select a handler; and in a
static versus dynamic overlap the more specific (static) route wins
regardless of registration order, so resolution is deterministic: being a
pure function, two identical requests always resolve identically. -/
theorem route_resolution_deterministic (routes : List Route) (m : String) (p : List String) :
    (∀ r, resolveRoute routes m p = some r → r ∈ routes ∧ routeMatches r m p = true) ∧
    ((∃ r ∈ routes, routeMatches r m p = true) → (resolveRoute routes m p).isSome = true) ∧
    (∀ s d, routeMatches s m p = true → routeMatches d m p = true →
      staticCount d.pattern < staticCount s.pattern →
      resolveRoute [s, d] m p = some s ∧ resolveRoute [d, s] m p = some s) := by
  refine ⟨?_, ?_, ?_⟩
  · intro r hr
    unfold resolveRoute at hr
    rcases foldl_pickBetter_eq_or_mem (routes.filter fun r => routeMatches r m p) none with h | h
    · rw [h] at hr; exact absurd hr (by simp)
    · rcases h with ⟨r2, hr2, he⟩
      rw [he] at hr
      cases hr
      have := List.mem_filter.mp hr2
      exact ⟨this.1, this.2⟩
  · rintro ⟨r, hr, hm⟩
    have hmem : r ∈ routes.filter fun r => routeMatches r m p :=
      List.mem_filter.mpr ⟨hr, hm⟩
    unfold resolveRoute
    rcases hfl : routes.filter fun r => routeMatches r m p with _ | ⟨a, as⟩
    · rw [hfl] at hmem; simp at hmem
    · simp only [List.foldl_cons]
      exact foldl_pickBetter_isSome as (pickBetter none a) rfl
  · intro s d hs hd hlt
    have hnlt : ¬ staticCount s.pattern < staticCount d.pattern := Nat.lt_asymm hlt
    constructor
    · unfold resolveRoute
      simp [hs, hd, pickBetter, hnlt]
    · unfold resolveRoute
      simp [hs, hd, pickBetter, hlt]

/-- Witness for C3: both the static route for /grower/abc and the dynamic
route for /grower/(id) match GET /grower/abc; whichever is registered first,
resolution picks the static route. -/
theorem route_resolution_deterministic_witness :
    resolveRoute [routeStatic, routeDyn] "GET" ["grower", "abc"] = some routeStatic ∧
    resolveRoute [routeDyn, routeStatic] "GET" ["grower", "abc"] = some routeStatic :=
  (route_resolution_deterministic [routeStatic, routeDyn] "GET" ["grower", "abc"]).2.2
    routeStatic routeDyn (by decide) (by decide) (by decide)

end Acai
